import Mathlib

/-!
Shallow embedding of terarkdb's point-lookup core:
`src/table/get_context.cc` (GetContext::SaveValue resolver state machine,
GetContext::SetReplayLog, RowCacheContext replay-log encode/decode) and
`src/memtable/hash_skiplist_rep.cc` (hash-sharded skip-list memtable rep).

Byte strings are `List Nat`; machine integers are `Nat`.  Assertions in the
C++ (plain `assert(...)`) are modelled by recording the source line of every
violated assertion in an `assertsFailed` list while execution continues with
the NDEBUG (assert-disabled) semantics, which is exactly what the compiled
code does.  External collaborators (comparator, merge operator, separate
helper) are parameters gathered in a `Collaborators` structure.
-/

/-- Record types, from the closed set used by `GetContext::SaveValue`
(the numeric codes live in `db/dbformat.h`, which is not part of this
repository; the codes below are modelled from the spec's closed set and
only their injectivity matters). -/
inductive ValueType where
  | kTypeDeletion
  | kTypeValue
  | kTypeMerge
  | kTypeSingleDeletion
  | kTypeRangeDeletion
  | kTypeValueIndex
  | kTypeMergeIndex
deriving DecidableEq, Repr

/-- Resolver states (`GetContext::GetState`). -/
inductive GetState where
  | kNotFound
  | kFound
  | kDeleted
  | kCorrupt
  | kMerge
deriving DecidableEq, Repr

/-- Modelled from the spec: the byte stored for a record type in the replay
log (`replay_log->push_back(type)`); `db/dbformat.h` is not in this
repository, so concrete codes are chosen; decoding only needs injectivity. -/
def typeByte : ValueType → Nat
  | .kTypeDeletion => 0
  | .kTypeValue => 1
  | .kTypeMerge => 2
  | .kTypeSingleDeletion => 7
  | .kTypeRangeDeletion => 15
  | .kTypeValueIndex => 22
  | .kTypeMergeIndex => 23

/-- Inverse of `typeByte` (the replay loop's `static_cast<ValueType>`). -/
def decodeType (b : Nat) : ValueType :=
  if b = 0 then .kTypeDeletion
  else if b = 1 then .kTypeValue
  else if b = 2 then .kTypeMerge
  else if b = 7 then .kTypeSingleDeletion
  else if b = 15 then .kTypeRangeDeletion
  else if b = 22 then .kTypeValueIndex
  else .kTypeMergeIndex

/-- Modelled from the spec: `kMaxSequenceNumber` from `db/dbformat.h`
(not in this repository): the largest representable sequence number. -/
def kMaxSequenceNumber : Nat := 2 ^ 56 - 1

/-- Modelled from the spec: `PackSequenceAndType` from `db/dbformat.h`
(not in this repository): `(seq << 8) | type`. -/
def packSequenceAndType (seq : Nat) (t : ValueType) : Nat :=
  seq * 256 + typeByte t

/-- External collaborators consumed by the resolver: the user-key
comparator's equality, the merge operator (`TimedFullMerge`, `none`
modelling a non-ok merge status, operands newest-first per the spec since
`db/merge_context.h` is not in this repository), the merge operator's
`ShouldMerge` predicate over operands, and the separation helper's
`TransToCombined` translation of indirect values. -/
structure Collaborators where
  ucmpEqual : List Nat → List Nat → Bool
  fullMerge : List Nat → Option (List Nat) → List (List Nat) → Option (List Nat)
  shouldMerge : List (List Nat) → Bool
  transToCombined : List Nat → Nat → List Nat → List Nat

/-- The mutable state of one `GetContext` plus the pointers it was
constructed with.  `lazyValPresent`/`seqPtr`/`maxCoveringTombstoneSeq`
model whether the corresponding pointers are null; `hasReplayLog` models
`replay_log_callback_ != nullptr` and `replayLog` records the pairs the
callback received, in order; `callback` models the `ReadCallback`
visibility predicate (`none` = null pointer); `assertsFailed` records the
source lines of violated `assert`s (execution continues, NDEBUG-style). -/
structure GetContext where
  state : GetState
  userKey : List Nat
  lazyValPresent : Bool
  lazyVal : List Nat
  operands : List (List Nat)
  maxCoveringTombstoneSeq : Option Nat
  seqPtr : Option Nat
  minSeqType : Nat
  hasReplayLog : Bool
  replayLog : List (ValueType × List Nat)
  callback : Option (Nat → Bool)
  trivial : Bool
  assertsFailed : List Nat

/-- Record an assertion check at a source line: continue unchanged if the
condition holds, otherwise remember the violation. -/
def chk (cond : Bool) (line : Nat) (ctx : GetContext) : GetContext :=
  if cond then ctx else { ctx with assertsFailed := ctx.assertsFailed ++ [line] }

/-- Model of `GetContext::CheckCallback`: a null callback means every sequence is
visible. -/
def checkCallback (ctx : GetContext) (seq : Nat) : Bool :=
  match ctx.callback with
  | none => true
  | some f => f seq

/-- The `GetContext` constructor with `init_state`, the target user key,
and the construction-time pointers (`min_seq_type_` starts at 0, no replay
callback, `*seq_` initialized to `kMaxSequenceNumber` when the pointer is
non-null). -/
def GetContext.init (initState : GetState) (userKey : List Nat)
    (lazyValPresent : Bool) (mcts : Option Nat) (hasSeqPtr : Bool)
    (cb : Option (Nat → Bool)) (trivial : Bool) : GetContext :=
  { state := initState
    userKey := userKey
    lazyValPresent := lazyValPresent
    lazyVal := []
    operands := []
    maxCoveringTombstoneSeq := mcts
    seqPtr := if hasSeqPtr then some kMaxSequenceNumber else none
    minSeqType := 0
    hasReplayLog := false
    replayLog := []
    callback := cb
    trivial := trivial
    assertsFailed := [] }

/-- A fresh resolver for one lookup: `kNotFound`, non-null output slice,
no covering tombstone, no `seq_` out-pointer, no visibility callback,
`trivial = false`. -/
def freshCtx (userKey : List Nat) : GetContext :=
  GetContext.init .kNotFound userKey true none false none false

/-- Result of one `SaveValue` step: the updated context, the returned
bool (`true` = keep scanning), and whether `*matched` was set. -/
structure SaveValueResult where
  ctx : GetContext
  ret : Bool
  matched : Bool

/-- The covering-tombstone test of `SaveValue` lines 180-182: the record is
masked when the tombstone pointer is non-null and its value is newer than
the record's sequence. -/
def coveredByTombstone (ctx : GetContext) (seq : Nat) : Bool :=
  match ctx.maxCoveringTombstoneSeq with
  | some m => decide (m > seq)
  | none => false

/-- Reclassification, `SaveValue` lines 178-185: a value/merge record
under a newer covering tombstone becomes an effective `kTypeRangeDeletion`
with its value discarded (`value.reset()`). -/
def reclassify (ctx : GetContext) (seq : Nat) (t : ValueType)
    (v : List Nat) : ValueType × List Nat :=
  if (t == .kTypeValue || t == .kTypeMerge || t == .kTypeValueIndex ||
      t == .kTypeMergeIndex) && coveredByTombstone ctx seq then
    (.kTypeRangeDeletion, [])
  else (t, v)

/-- The `switch (type)` of `SaveValue` lines 189-280, acting on the
effective (post-reclassification) type and value.  `seqType` is the packed
(original sequence, original type) passed to `TransToCombined`. -/
def dispatch (C : Collaborators) (ctx : GetContext) (seqType : Nat)
    (t : ValueType) (v : List Nat) : SaveValueResult :=
  match t with
  | .kTypeValueIndex | .kTypeValue =>
    -- kTypeValueIndex runs TransToCombined then falls through to kTypeValue
    let v := if t == .kTypeValueIndex then
        C.transToCombined ctx.userKey seqType v else v
    let ctx := chk (ctx.state == .kNotFound || ctx.state == .kMerge) 194 ctx
    if ctx.trivial then
      let ctx := chk (ctx.state == .kNotFound) 196 ctx
      let ctx := chk ctx.lazyValPresent 197 ctx
      ⟨{ ctx with state := .kFound, lazyVal := v }, false, true⟩
    else if ctx.state == .kNotFound then
      let ctx := { ctx with state := .kFound }
      let ctx := if ctx.lazyValPresent then { ctx with lazyVal := v } else ctx
      ⟨ctx, false, true⟩
    else if ctx.state == .kMerge then
      let ctx := { ctx with state := .kFound }
      let ctx :=
        if ctx.lazyValPresent then
          match C.fullMerge ctx.userKey (some v) ctx.operands with
          | some r => { ctx with lazyVal := r }
          | none => { ctx with state := .kCorrupt }
        else ctx
      ⟨ctx, false, true⟩
    else ⟨ctx, false, true⟩
  | .kTypeDeletion | .kTypeSingleDeletion | .kTypeRangeDeletion =>
    let ctx := chk (ctx.state == .kNotFound || ctx.state == .kMerge) 228 ctx
    if ctx.state == .kNotFound then
      ⟨{ ctx with state := .kDeleted }, false, true⟩
    else if ctx.state == .kMerge then
      let ctx := { ctx with state := .kFound }
      let ctx :=
        if ctx.lazyValPresent then
          match C.fullMerge ctx.userKey none ctx.operands with
          | some r => { ctx with lazyVal := r }
          | none => { ctx with state := .kCorrupt }
        else ctx
      ⟨ctx, false, true⟩
    else ⟨ctx, false, true⟩
  | .kTypeMergeIndex | .kTypeMerge =>
    -- kTypeMergeIndex runs TransToCombined then falls through to kTypeMerge
    let v := if t == .kTypeMergeIndex then
        C.transToCombined ctx.userKey seqType v else v
    let ctx := chk (ctx.state == .kNotFound || ctx.state == .kMerge) 250 ctx
    let ctx := { ctx with state := .kMerge }
    if ctx.trivial then
      let ctx := chk (ctx.state == .kNotFound) 253 ctx
      let ctx := chk ctx.lazyValPresent 254 ctx
      ⟨{ ctx with lazyVal := v }, false, true⟩
    else
      let ctx := { ctx with operands := ctx.operands ++ [v] }
      if C.shouldMerge ctx.operands then
        let ctx := { ctx with state := .kFound }
        let ctx :=
          if ctx.lazyValPresent then
            match C.fullMerge ctx.userKey none ctx.operands with
            | some r => { ctx with lazyVal := r }
            | none => { ctx with state := .kCorrupt }
          else ctx
        ⟨ctx, false, true⟩
      else ⟨ctx, true, true⟩

/-- Lines 171-176 of `SaveValue`: store the first visible sequence into
`*seq_` when the pointer is non-null and still uninitialized. -/
def seqUpdate (ctx : GetContext) (seq : Nat) : GetContext :=
  { ctx with seqPtr :=
      match ctx.seqPtr with
      | some s => some (if s = kMaxSequenceNumber then seq else s)
      | none => none }

/-- Lines 186-188 of `SaveValue`: forward the effective (type, value)
pair to the replay-log callback when one is registered. -/
def logAppend (ctx : GetContext) (tv : ValueType × List Nat) :
    GetContext :=
  if ctx.hasReplayLog then
    { ctx with replayLog := ctx.replayLog ++ [tv] }
  else ctx

/-- Model of `GetContext::SaveValue` (get_context.cc lines 153-285), one step of
the resolver on a parsed internal key `(userKey, seq, t)` and value `v`.
Returns `(updated context, bool return value, *matched)`. -/
def SaveValue (C : Collaborators) (ctx : GetContext) (userKey : List Nat)
    (seq : Nat) (t : ValueType) (v : List Nat) : SaveValueResult :=
  if C.ucmpEqual userKey ctx.userKey then
    let seqType := packSequenceAndType seq t
    if seqType < ctx.minSeqType then
      -- for map sst, this key is masked
      ⟨ctx, false, false⟩
    else if !checkCallback ctx seq then
      -- not in the snapshot: continue to the next seq
      ⟨ctx, true, true⟩
    else
      let ctx1 := seqUpdate ctx seq
      let tv := reclassify ctx1 seq t v
      dispatch C (logAppend ctx1 tv) seqType tv.1 tv.2
  else
    ⟨ctx, false, false⟩

/-- One candidate record handed to the resolver. -/
structure RecordIn where
  userKey : List Nat
  seq : Nat
  type : ValueType
  value : List Nat
deriving DecidableEq

/-- Feed a stream of candidate records to the resolver, stopping as soon
as `SaveValue` returns `false` (the table-reader scan loop). -/
def runStream (C : Collaborators) (ctx : GetContext) :
    List RecordIn → GetContext
  | [] => ctx
  | r :: rs =>
    let res := SaveValue C ctx r.userKey r.seq r.type r.value
    if res.ret then runStream C res.ctx rs else res.ctx

/-- Model of `GetContext::SetReplayLog` (lines 287-299).  The new callback is
modelled by the `Bool` `newCb` (non-null?).  When a non-null callback is
replaced by null while the state is still `kNotFound`/`kMerge` and a
nonzero covering-tombstone sequence is set, one final
`(kTypeRangeDeletion, empty)` pair is sent to the old callback. -/
def SetReplayLog (ctx : GetContext) (newCb : Bool) : GetContext :=
  let emit := !newCb && ctx.hasReplayLog &&
      (ctx.state == .kNotFound || ctx.state == .kMerge) &&
      (match ctx.maxCoveringTombstoneSeq with
       | some m => decide (m ≠ 0)
       | none => false)
  let ctx :=
    if emit then
      { ctx with replayLog := ctx.replayLog ++ [(.kTypeRangeDeletion, [])] }
    else ctx
  { ctx with hasReplayLog := newCb }

/-! ## Row-cache replay log wire format (RowCacheContext) -/

/-- Fuel-indexed LEB128 encoder; `fuel` bounds the recursion depth and is
never exhausted when `n ≤ fuel` (the quotient shrinks strictly). -/
def encodeVarintAux : Nat → Nat → List Nat
  | 0, n => [n % 128]
  | fuel + 1, n =>
    if n < 128 then [n] else (n % 128 + 128) :: encodeVarintAux fuel (n / 128)

/-- Modelled from the spec: `EncodeVarint64`/`PutVarint32` LEB128 encoding
(`util/coding.h` is not in this repository): 7 data bits per byte, high bit
set on continuation bytes. -/
def encodeVarint (n : Nat) : List Nat :=
  encodeVarintAux n n

/-- Modelled from the spec: varint decoding (`GetVarint32`), returning the
decoded number and the remaining bytes. -/
def decodeVarint : List Nat → Option (Nat × List Nat)
  | [] => none
  | b :: rest =>
    if b < 128 then some (b, rest)
    else
      match decodeVarint rest with
      | some (m, rest') => some (m * 128 + (b % 128), rest')
      | none => none

/-- Model of `GetLengthPrefixedSlice`: read a varint length then that many bytes. -/
def getLengthPrefixedSlice (l : List Nat) : Option (List Nat × List Nat) :=
  match decodeVarint l with
  | some (n, rest) =>
    if n ≤ rest.length then some (rest.take n, rest.drop n) else none
  | none => none

/-- Model of `RowCacheContext::AddReplayLog` accumulated over a whole lookup: each
consumed pair contributes `(1-byte type, varint length, value bytes)`. -/
def encodeReplayLog : List (ValueType × List Nat) → List Nat
  | [] => []
  | (t, v) :: ps =>
    typeByte t :: (encodeVarint v.length ++ v ++ encodeReplayLog ps)

/-- The decode half of `RowCacheContext::GetFromRowCache`'s replay loop,
separated from the `SaveValue` calls (the loop never reads the buffer
through the context, so decoding first is an equivalent factoring).  Fuel
is the buffer length: every iteration consumes at least one byte. -/
def decodeReplayLogAux : Nat → List Nat → List (ValueType × List Nat)
  | 0, _ => []
  | _, [] => []
  | fuel + 1, b :: rest =>
    match getLengthPrefixedSlice rest with
    | some (v, rest') => (decodeType b, v) :: decodeReplayLogAux fuel rest'
    | none => []

/-- Decode a replay-log buffer into its (type, value) pairs. -/
def decodeReplayLog (buf : List Nat) : List (ValueType × List Nat) :=
  decodeReplayLogAux buf.length buf

/-- Replay decoded pairs through a resolver: each pair is fed to
`SaveValue` with the synthetic sequence `kMaxSequenceNumber`; the loop
ignores `SaveValue`'s return value. -/
def replayPairs (C : Collaborators) (ctx : GetContext) (userKey : List Nat)
    (pairs : List (ValueType × List Nat)) : GetContext :=
  pairs.foldl
    (fun c tv => (SaveValue C c userKey kMaxSequenceNumber tv.1 tv.2).ctx) ctx

/-- The replay half of `RowCacheContext::GetFromRowCache` (lines 345-399):
decode the cached buffer pair by pair and feed each into a fresh resolver
with no visibility callback. -/
def GetFromRowCacheReplay (C : Collaborators) (userKey : List Nat)
    (buf : List Nat) : GetContext :=
  replayPairs C (freshCtx userKey) userKey (decodeReplayLog buf)

/-- Model of `IterKey::TrimAppend(n, d, s)`: keep the first `n` bytes then append. -/
def trimAppend (k : List Nat) (n : Nat) (d : List Nat) : List Nat :=
  k.take n ++ d

/-- The sequence number `GetFromRowCache` bakes into the cache key
(lines 315-318): `largest_seqno` without a snapshot, otherwise
`min(largest_seqno, GetInternalKeySeqno(key))`. -/
def rowCacheSeqNo (snapshotActive : Bool) (largestSeqno keySeqno : Nat) :
    Nat :=
  if snapshotActive then min largestSeqno keySeqno else largestSeqno

/-- The cache-key computation of `GetFromRowCache` (lines 320-325), as the
exact sequence of `TrimAppend`/`AppendVarint64` calls on the caller's
`IterKey`.  The lookup key is modelled as its (user key, sequence) parts,
`ExtractUserKey`/`GetInternalKeySeqno` being its projections. -/
def computeRowCacheKey (cacheKey0 : List Nat) (rowCacheId : List Nat)
    (fileNumber : Nat) (snapshotActive : Bool) (largestSeqno : Nat)
    (userKey : List Nat) (keySeqno : Nat) : List Nat :=
  let seqNo := rowCacheSeqNo snapshotActive largestSeqno keySeqno
  let k := trimAppend cacheKey0 cacheKey0.length rowCacheId
  let k := trimAppend k k.length (encodeVarint fileNumber)
  let k := trimAppend k k.length (encodeVarint seqNo)
  trimAppend k k.length userKey

/-! ## Hash-sharded skip-list memtable rep (hash_skiplist_rep.cc) -/

/-- Modelled from the spec: `ExtractUserKey` (`db/dbformat.h` is not in
this repository): an internal key is the user key followed by 8 bytes of
packed (sequence, type). -/
def extractUserKey (internalKey : List Nat) : List Nat :=
  internalKey.take (internalKey.length - 8)

/-- Model of `HashSkipListRep`: a fixed-size array of lazily created buckets.  A
bucket (`SkipList`) is modelled by the list of internal keys inserted into
it (`none` = the null pointer of an untouched slot); `hashFn` is
`MurmurHash` (abstract), `ceq` is the key comparator's equality on encoded
internal keys, `transform` the prefix extractor. -/
structure HashSkipListRep where
  bucketSize : Nat
  buckets : Nat → Option (List (List Nat))
  transform : List Nat → List Nat
  hashFn : List Nat → Nat
  ceq : List Nat → List Nat → Bool

/-- Model of `HashSkipListRep::GetHash`: murmur of the transformed key mod the
bucket count. -/
def getHash (r : HashSkipListRep) (transformed : List Nat) : Nat :=
  r.hashFn transformed % r.bucketSize

/-- Model of `HashSkipListRep::GetBucket` (by transformed key). -/
def getBucket (r : HashSkipListRep) (transformed : List Nat) :
    Option (List (List Nat)) :=
  r.buckets (getHash r transformed)

/-- Model of `HashSkipListRep::Insert` (lines 271-278): hash the transformed user
key, lazily materialize the bucket (`GetInitializedBucket`), insert the
record.  The record handle's payload beyond the internal key plays no role
in membership, so a record is modelled by its internal key. -/
def HashSkipListRep.Insert (r : HashSkipListRep) (internalKey : List Nat) :
    HashSkipListRep :=
  let transformed := r.transform (extractUserKey internalKey)
  let h := getHash r transformed
  let bucket := (r.buckets h).getD []
  { r with
    buckets := fun i =>
      if i = h then some (bucket ++ [internalKey]) else r.buckets i }

/-- Model of `HashSkipListRep::Contains` (lines 280-288): recompute the shard; a
null bucket means absent, else the bucket's comparator-based membership
check. -/
def HashSkipListRep.Contains (r : HashSkipListRep) (internalKey : List Nat) :
    Bool :=
  match getBucket r (r.transform (extractUserKey internalKey)) with
  | none => false
  | some b => b.any (fun k => r.ceq k internalKey)

/-! ## Iterator variants and SeekForPrev (hash_skiplist_rep.cc) -/

/-- State of `HashSkipListRep::Iterator` relevant to `SeekForPrev`: the
bound bucket (if any), the cursor position inside it, and the recorded
assertion failures. -/
structure HSLIterator where
  list : Option (List (List Nat))
  pos : Option Nat
  assertsFailed : List Nat

/-- Model of `HashSkipListRep::Iterator::SeekForPrev` (lines 135-139): the body is
`assert(false)` and nothing else — the position is untouched and the
assertion always fails. -/
def HSLIterator.seekForPrev (it : HSLIterator) : HSLIterator :=
  { it with assertsFailed := it.assertsFailed ++ [138] }

/-- Model of `HashSkipListRep::DynamicIterator`, which does not override `SeekForPrev`;
it inherits the base iterator's body. -/
structure DynamicIterator where
  base : HSLIterator

/-- Model of `SeekForPrev` on the dynamic prefix iterator: the inherited
`assert(false)` body. -/
def DynamicIterator.seekForPrev (it : DynamicIterator) : DynamicIterator :=
  ⟨it.base.seekForPrev⟩

/-- Model of `HashSkipListRep::EmptyIterator`, stateless except for the recorded
assertion failures (it is always invalid). -/
structure EmptyIterator where
  assertsFailed : List Nat

/-- Model of `EmptyIterator::Valid` (line 216): always false. -/
def EmptyIterator.valid (_ : EmptyIterator) : Bool := false

/-- Model of `EmptyIterator::SeekForPrev` (lines 225-226): an empty body — a
silent no-op, with no assertion. -/
def EmptyIterator.seekForPrev (it : EmptyIterator) : EmptyIterator := it

/-! ## Concrete collaborator instances used by witnesses and
counterexamples -/

/-- A concrete collaborator set: bytewise key equality, a full merge that
concatenates the base value with the operands, never-stop `ShouldMerge`,
and a translation that prepends the parity of the packed sequence/type. -/
def CexA : Collaborators :=
  { ucmpEqual := fun a b => a == b
    fullMerge := fun _ base opsl => some (base.getD [] ++ opsl.flatten)
    shouldMerge := fun _ => false
    transToCombined := fun _ st v => (st % 2) :: v }

/-- A collaborator set whose indirect-value translation depends on the
packed sequence number (as the real separation helper may: it reads the
separated value log at that sequence). -/
def CexVI : Collaborators :=
  { CexA with
    transToCombined := fun _ st v => (if st < 10000 then 1 else 2) :: v }

/-! ## Field-preservation lemmas -/

@[simp] lemma chk_state (c : Bool) (l : Nat) (ctx : GetContext) :
    (chk c l ctx).state = ctx.state := by
  unfold chk; split <;> rfl

@[simp] lemma chk_userKey (c : Bool) (l : Nat) (ctx : GetContext) :
    (chk c l ctx).userKey = ctx.userKey := by
  unfold chk; split <;> rfl

@[simp] lemma chk_lazyValPresent (c : Bool) (l : Nat) (ctx : GetContext) :
    (chk c l ctx).lazyValPresent = ctx.lazyValPresent := by
  unfold chk; split <;> rfl

@[simp] lemma chk_lazyVal (c : Bool) (l : Nat) (ctx : GetContext) :
    (chk c l ctx).lazyVal = ctx.lazyVal := by
  unfold chk; split <;> rfl

@[simp] lemma chk_operands (c : Bool) (l : Nat) (ctx : GetContext) :
    (chk c l ctx).operands = ctx.operands := by
  unfold chk; split <;> rfl

@[simp] lemma chk_mcts (c : Bool) (l : Nat) (ctx : GetContext) :
    (chk c l ctx).maxCoveringTombstoneSeq = ctx.maxCoveringTombstoneSeq := by
  unfold chk; split <;> rfl

@[simp] lemma chk_seqPtr (c : Bool) (l : Nat) (ctx : GetContext) :
    (chk c l ctx).seqPtr = ctx.seqPtr := by
  unfold chk; split <;> rfl

@[simp] lemma chk_minSeqType (c : Bool) (l : Nat) (ctx : GetContext) :
    (chk c l ctx).minSeqType = ctx.minSeqType := by
  unfold chk; split <;> rfl

@[simp] lemma chk_hasReplayLog (c : Bool) (l : Nat) (ctx : GetContext) :
    (chk c l ctx).hasReplayLog = ctx.hasReplayLog := by
  unfold chk; split <;> rfl

@[simp] lemma chk_replayLog (c : Bool) (l : Nat) (ctx : GetContext) :
    (chk c l ctx).replayLog = ctx.replayLog := by
  unfold chk; split <;> rfl

@[simp] lemma chk_callback (c : Bool) (l : Nat) (ctx : GetContext) :
    (chk c l ctx).callback = ctx.callback := by
  unfold chk; split <;> rfl

@[simp] lemma chk_trivial (c : Bool) (l : Nat) (ctx : GetContext) :
    (chk c l ctx).trivial = ctx.trivial := by
  unfold chk; split <;> rfl

@[simp] lemma seqUpdate_state (ctx : GetContext) (seq : Nat) :
    (seqUpdate ctx seq).state = ctx.state := rfl

@[simp] lemma seqUpdate_userKey (ctx : GetContext) (seq : Nat) :
    (seqUpdate ctx seq).userKey = ctx.userKey := rfl

@[simp] lemma seqUpdate_lazyValPresent (ctx : GetContext) (seq : Nat) :
    (seqUpdate ctx seq).lazyValPresent = ctx.lazyValPresent := rfl

@[simp] lemma seqUpdate_lazyVal (ctx : GetContext) (seq : Nat) :
    (seqUpdate ctx seq).lazyVal = ctx.lazyVal := rfl

@[simp] lemma seqUpdate_operands (ctx : GetContext) (seq : Nat) :
    (seqUpdate ctx seq).operands = ctx.operands := rfl

@[simp] lemma seqUpdate_mcts (ctx : GetContext) (seq : Nat) :
    (seqUpdate ctx seq).maxCoveringTombstoneSeq =
      ctx.maxCoveringTombstoneSeq := rfl

@[simp] lemma seqUpdate_minSeqType (ctx : GetContext) (seq : Nat) :
    (seqUpdate ctx seq).minSeqType = ctx.minSeqType := rfl

@[simp] lemma seqUpdate_hasReplayLog (ctx : GetContext) (seq : Nat) :
    (seqUpdate ctx seq).hasReplayLog = ctx.hasReplayLog := rfl

@[simp] lemma seqUpdate_replayLog (ctx : GetContext) (seq : Nat) :
    (seqUpdate ctx seq).replayLog = ctx.replayLog := rfl

@[simp] lemma seqUpdate_callback (ctx : GetContext) (seq : Nat) :
    (seqUpdate ctx seq).callback = ctx.callback := rfl

@[simp] lemma seqUpdate_trivial (ctx : GetContext) (seq : Nat) :
    (seqUpdate ctx seq).trivial = ctx.trivial := rfl

@[simp] lemma seqUpdate_assertsFailed (ctx : GetContext) (seq : Nat) :
    (seqUpdate ctx seq).assertsFailed = ctx.assertsFailed := rfl

@[simp] lemma logAppend_state (ctx : GetContext) (tv : ValueType × List Nat) :
    (logAppend ctx tv).state = ctx.state := by
  unfold logAppend; split <;> rfl

@[simp] lemma logAppend_userKey (ctx : GetContext)
    (tv : ValueType × List Nat) :
    (logAppend ctx tv).userKey = ctx.userKey := by
  unfold logAppend; split <;> rfl

@[simp] lemma logAppend_lazyValPresent (ctx : GetContext)
    (tv : ValueType × List Nat) :
    (logAppend ctx tv).lazyValPresent = ctx.lazyValPresent := by
  unfold logAppend; split <;> rfl

@[simp] lemma logAppend_lazyVal (ctx : GetContext)
    (tv : ValueType × List Nat) :
    (logAppend ctx tv).lazyVal = ctx.lazyVal := by
  unfold logAppend; split <;> rfl

@[simp] lemma logAppend_operands (ctx : GetContext)
    (tv : ValueType × List Nat) :
    (logAppend ctx tv).operands = ctx.operands := by
  unfold logAppend; split <;> rfl

@[simp] lemma logAppend_mcts (ctx : GetContext)
    (tv : ValueType × List Nat) :
    (logAppend ctx tv).maxCoveringTombstoneSeq =
      ctx.maxCoveringTombstoneSeq := by
  unfold logAppend; split <;> rfl

@[simp] lemma logAppend_minSeqType (ctx : GetContext)
    (tv : ValueType × List Nat) :
    (logAppend ctx tv).minSeqType = ctx.minSeqType := by
  unfold logAppend; split <;> rfl

@[simp] lemma logAppend_hasReplayLog (ctx : GetContext)
    (tv : ValueType × List Nat) :
    (logAppend ctx tv).hasReplayLog = ctx.hasReplayLog := by
  unfold logAppend; split <;> rfl

@[simp] lemma logAppend_callback (ctx : GetContext)
    (tv : ValueType × List Nat) :
    (logAppend ctx tv).callback = ctx.callback := by
  unfold logAppend; split <;> rfl

@[simp] lemma logAppend_trivial (ctx : GetContext)
    (tv : ValueType × List Nat) :
    (logAppend ctx tv).trivial = ctx.trivial := by
  unfold logAppend; split <;> rfl

@[simp] lemma logAppend_assertsFailed (ctx : GetContext)
    (tv : ValueType × List Nat) :
    (logAppend ctx tv).assertsFailed = ctx.assertsFailed := by
  unfold logAppend; split <;> rfl

@[simp] lemma logAppend_seqPtr (ctx : GetContext)
    (tv : ValueType × List Nat) :
    (logAppend ctx tv).seqPtr = ctx.seqPtr := by
  unfold logAppend; split <;> rfl

lemma logAppend_replayLog (ctx : GetContext) (tv : ValueType × List Nat) :
    (logAppend ctx tv).replayLog =
      ctx.replayLog ++ (if ctx.hasReplayLog then [tv] else []) := by
  unfold logAppend; split <;> simp_all

@[simp] lemma reclassify_seqUpdate (ctx : GetContext) (s seq : Nat)
    (t : ValueType) (v : List Nat) :
    reclassify (seqUpdate ctx s) seq t v = reclassify ctx seq t v := rfl

@[simp] lemma coveredByTombstone_seqUpdate (ctx : GetContext)
    (s seq : Nat) :
    coveredByTombstone (seqUpdate ctx s) seq =
      coveredByTombstone ctx seq := rfl

/-- A record for the target key that survives the map-sst mask and the
visibility callback is consumed: `SaveValue` reduces to the dispatch of
the effective (reclassified) pair on the sequence-updated, log-extended
context. -/
lemma saveValue_consumed (C : Collaborators) (ctx : GetContext)
    (ukey : List Nat) (seq : Nat) (t : ValueType) (v : List Nat)
    (hk : C.ucmpEqual ukey ctx.userKey = true)
    (hmin : ctx.minSeqType = 0)
    (hvis : checkCallback ctx seq = true) :
    SaveValue C ctx ukey seq t v =
      dispatch C (logAppend (seqUpdate ctx seq) (reclassify ctx seq t v))
        (packSequenceAndType seq t)
        (reclassify ctx seq t v).1 (reclassify ctx seq t v).2 := by
  simp [SaveValue, hk, hmin, hvis]

/-- Evaluating `SaveValue` on a record whose user key does not compare equal to the
target: the context is returned untouched, the scan-stop signal `false`
is returned, and `*matched` is not set. -/
lemma saveValue_key_mismatch (C : Collaborators) (ctx : GetContext)
    (ukey : List Nat) (seq : Nat) (t : ValueType) (v : List Nat)
    (h : C.ucmpEqual ukey ctx.userKey = false) :
    SaveValue C ctx ukey seq t v = ⟨ctx, false, false⟩ := by
  simp [SaveValue, h]

/-- The type switch only ever touches `state`, `lazyVal`, `operands` and
`assertsFailed`: every other context field survives `dispatch`. -/
lemma dispatch_preserves (C : Collaborators) (ctx : GetContext)
    (st : Nat) (t : ValueType) (v : List Nat) :
    (dispatch C ctx st t v).ctx.userKey = ctx.userKey ∧
    (dispatch C ctx st t v).ctx.trivial = ctx.trivial ∧
    (dispatch C ctx st t v).ctx.minSeqType = ctx.minSeqType ∧
    (dispatch C ctx st t v).ctx.lazyValPresent = ctx.lazyValPresent ∧
    (dispatch C ctx st t v).ctx.hasReplayLog = ctx.hasReplayLog ∧
    (dispatch C ctx st t v).ctx.callback = ctx.callback ∧
    (dispatch C ctx st t v).ctx.maxCoveringTombstoneSeq =
      ctx.maxCoveringTombstoneSeq ∧
    (dispatch C ctx st t v).ctx.replayLog = ctx.replayLog ∧
    (dispatch C ctx st t v).ctx.seqPtr = ctx.seqPtr := by
  cases t <;> simp only [dispatch] <;> (repeat' split) <;> simp

/-- For direct (non-indirect) record types the switch reads only the
user key, `trivial_`, the output-slice pointer, the state, the output
value and the operand list — in particular not the packed sequence.  Two
contexts agreeing on those produce the same observable step. -/
lemma dispatch_congr (C : Collaborators) (a b : GetContext) (sa sb : Nat)
    (t : ValueType) (v : List Nat)
    (ht1 : t ≠ .kTypeValueIndex) (ht2 : t ≠ .kTypeMergeIndex)
    (hu : a.userKey = b.userKey) (htr : a.trivial = b.trivial)
    (hlp : a.lazyValPresent = b.lazyValPresent)
    (hs : a.state = b.state) (hl : a.lazyVal = b.lazyVal)
    (hop : a.operands = b.operands) :
    (dispatch C a sa t v).ctx.state = (dispatch C b sb t v).ctx.state ∧
    (dispatch C a sa t v).ctx.lazyVal = (dispatch C b sb t v).ctx.lazyVal ∧
    (dispatch C a sa t v).ctx.operands =
      (dispatch C b sb t v).ctx.operands ∧
    (dispatch C a sa t v).ret = (dispatch C b sb t v).ret := by
  cases t <;>
    first
      | exact absurd rfl ht1
      | exact absurd rfl ht2
      | (simp only [dispatch, chk_state, chk_userKey, chk_lazyValPresent,
          chk_lazyVal, chk_operands, chk_trivial, hu, htr, hlp, hs, hl,
          hop]
         (repeat' split) <;> simp_all)

/-- C4 (counterexample): the claim says a record whose user key differs
from the target leaves the resolver unchanged **and signals that scanning
should continue**; on the concrete mismatching record below `SaveValue`
leaves the context unchanged but returns `false`, the scan-stop signal. -/
theorem C4_counterexample :
    (SaveValue CexA (freshCtx [1]) [2] 5 .kTypeValue [9]).ctx =
      freshCtx [1] ∧
    (SaveValue CexA (freshCtx [1]) [2] 5 .kTypeValue [9]).ret = false :=
  ⟨rfl, rfl⟩

/-- C4 (amended): for every call to `SaveValue` with a record whose user
key does not compare equal to the target user key, the resolver state is
unchanged and `*matched` is not set, but the step returns `false` — the
scan-stop signal — rather than directing the scan to continue. -/
theorem C4_key_mismatch (C : Collaborators) (ctx : GetContext)
    (ukey : List Nat) (seq : Nat) (t : ValueType) (v : List Nat)
    (h : C.ucmpEqual ukey ctx.userKey = false) :
    (SaveValue C ctx ukey seq t v).ctx = ctx ∧
    (SaveValue C ctx ukey seq t v).ret = false ∧
    (SaveValue C ctx ukey seq t v).matched = false := by
  rw [saveValue_key_mismatch C ctx ukey seq t v h]
  exact ⟨rfl, rfl, rfl⟩

/-- C4 (witness): the amended statement at a concrete mismatching
record. -/
theorem C4_witness :
    (SaveValue CexA (freshCtx [1]) [2] 7 .kTypeMerge [3]).ctx =
      freshCtx [1] ∧
    (SaveValue CexA (freshCtx [1]) [2] 7 .kTypeMerge [3]).ret = false ∧
    (SaveValue CexA (freshCtx [1]) [2] 7 .kTypeMerge [3]).matched = false :=
  C4_key_mismatch CexA (freshCtx [1]) [2] 7 .kTypeMerge [3] (by decide)

/-- C5 (counterexample): the claim says `SeekForPrev` fails loudly via
assertion on **every** iterator variant; `EmptyIterator::SeekForPrev` is
a silent no-op that records no assertion failure. -/
theorem C5_counterexample :
    EmptyIterator.seekForPrev ⟨[]⟩ = (⟨[]⟩ : EmptyIterator) ∧
    (EmptyIterator.seekForPrev ⟨[]⟩).assertsFailed = [] :=
  ⟨rfl, rfl⟩

/-- C5 (amended): `SeekForPrev` hits `assert(false)` on the static
iterator and on the dynamic prefix iterator (which inherits the same
body), leaving the position untouched; the empty iterator instead treats
`SeekForPrev` as a silent no-op and simply stays invalid. -/
theorem C5_seekForPrev_variants (it : HSLIterator) (d : DynamicIterator)
    (e : EmptyIterator) :
    it.seekForPrev.assertsFailed = it.assertsFailed ++ [138] ∧
    it.seekForPrev.list = it.list ∧
    it.seekForPrev.pos = it.pos ∧
    d.seekForPrev.base.assertsFailed = d.base.assertsFailed ++ [138] ∧
    e.seekForPrev = e ∧
    e.seekForPrev.valid = false :=
  ⟨rfl, rfl, rfl, rfl, rfl, rfl⟩

/-- C9: clearing the replay callback (passing null) while a callback was
registered, the state is `kNotFound` or `kMerge`, and the covering
tombstone pointer is non-null with a nonzero value emits exactly one
extra `(kTypeRangeDeletion, empty)` pair to the old callback before the
callback is replaced; in every other situation nothing is emitted, and
the callback field always becomes the new value. -/
theorem C9_setReplayLog_emission (ctx : GetContext) (newCb : Bool) :
    ((newCb = false ∧ ctx.hasReplayLog = true ∧
        (ctx.state = .kNotFound ∨ ctx.state = .kMerge) ∧
        (∃ m, ctx.maxCoveringTombstoneSeq = some m ∧ m ≠ 0)) →
      (SetReplayLog ctx newCb).replayLog =
        ctx.replayLog ++ [(.kTypeRangeDeletion, [])]) ∧
    ((newCb = true ∨ ctx.hasReplayLog = false ∨
        (ctx.state ≠ .kNotFound ∧ ctx.state ≠ .kMerge) ∨
        ctx.maxCoveringTombstoneSeq = none ∨
        ctx.maxCoveringTombstoneSeq = some 0) →
      (SetReplayLog ctx newCb).replayLog = ctx.replayLog) ∧
    (SetReplayLog ctx newCb).hasReplayLog = newCb := by
  refine ⟨?_, ?_, ?_⟩
  · rintro ⟨rfl, h2, h3, m, hm, hm0⟩
    rcases h3 with h3 | h3 <;> simp [SetReplayLog, h2, h3, hm, hm0]
  · rintro (rfl | h | ⟨h1, h2⟩ | h | h) <;>
      simp [SetReplayLog, *]
  · rfl

/-- A concrete context with a registered replay callback and a nonzero
covering tombstone, used by the C9 witness. -/
def c9w : GetContext :=
  { freshCtx [1] with hasReplayLog := true, maxCoveringTombstoneSeq := some 3 }

/-- C9 (witness): the emission case at a concrete context. -/
theorem C9_witness :
    (SetReplayLog c9w false).replayLog = [(.kTypeRangeDeletion, [])] ∧
    (SetReplayLog c9w false).hasReplayLog = false := by
  have h := C9_setReplayLog_emission c9w false
  refine ⟨?_, h.2.2⟩
  have h1 := h.1 ⟨rfl, rfl, Or.inl rfl, ⟨3, rfl, by decide⟩⟩
  simpa using h1

/-- A fresh resolver whose lookup saw a covering range tombstone at
sequence `m`, with a replay sink registered. -/
def tombCtx (ukey : List Nat) (m : Nat) : GetContext :=
  { freshCtx ukey with
    maxCoveringTombstoneSeq := some m
    hasReplayLog := true }

/-- C2: a value/merge/value-index/merge-index record whose sequence is
below the set covering-tombstone sequence is reclassified to
`kTypeRangeDeletion` with its value discarded, so a fresh resolver whose
only visible record is such a masked record ends in `kDeleted` (not the
value): the sink sees `(kTypeRangeDeletion, empty)`, the output slice is
never written, and the scan stops. -/
theorem C2_tombstone_masks (C : Collaborators) (ukey v : List Nat)
    (seq m : Nat) (t : ValueType)
    (hk : C.ucmpEqual ukey ukey = true)
    (ht : t = .kTypeValue ∨ t = .kTypeMerge ∨ t = .kTypeValueIndex ∨
      t = .kTypeMergeIndex)
    (hm : seq < m) :
    (SaveValue C (tombCtx ukey m) ukey seq t v).ctx.state = .kDeleted ∧
    (SaveValue C (tombCtx ukey m) ukey seq t v).ctx.replayLog =
      [(.kTypeRangeDeletion, [])] ∧
    (SaveValue C (tombCtx ukey m) ukey seq t v).ctx.lazyVal = [] ∧
    (SaveValue C (tombCtx ukey m) ukey seq t v).ret = false := by
  rcases ht with rfl | rfl | rfl | rfl <;>
    simp [SaveValue, tombCtx, freshCtx, GetContext.init, checkCallback,
      reclassify, coveredByTombstone, dispatch, chk, logAppend, seqUpdate,
      hk, hm]

/-- C2 (witness): a concrete masked value record resolves to Deleted. -/
theorem C2_witness :
    (SaveValue CexA (tombCtx [1] 10) [1] 5 .kTypeValue [9]).ctx.state =
      .kDeleted ∧
    (SaveValue CexA (tombCtx [1] 10) [1] 5 .kTypeValue [9]).ctx.replayLog =
      [(.kTypeRangeDeletion, [])] ∧
    (SaveValue CexA (tombCtx [1] 10) [1] 5 .kTypeValue [9]).ctx.lazyVal =
      [] ∧
    (SaveValue CexA (tombCtx [1] 10) [1] 5 .kTypeValue [9]).ret = false :=
  C2_tombstone_masks CexA [1] [9] 5 10 .kTypeValue (by decide)
    (Or.inl rfl) (by decide)

/-- C10: with `trivial_ = true`, a visible merge-type record sets the
state to `kMerge` on line 251, immediately before the trivial branch's
`assert(kNotFound == state_)` on line 253 — so that assertion fails on
every such call; with assertions disabled the branch stores the (for
`kTypeMergeIndex`, translated) operand into the output slice, pushes no
operand, performs no merge, and returns the stop signal. -/
theorem C10_trivial_merge_assert (C : Collaborators) (ctx : GetContext)
    (ukey v : List Nat) (seq : Nat) (t : ValueType)
    (htriv : ctx.trivial = true)
    (hlz : ctx.lazyValPresent = true)
    (hst : ctx.state = .kNotFound ∨ ctx.state = .kMerge)
    (hk : C.ucmpEqual ukey ctx.userKey = true)
    (hmin : ctx.minSeqType = 0)
    (hvis : checkCallback ctx seq = true)
    (hcov : coveredByTombstone ctx seq = false)
    (ht : t = .kTypeMerge ∨ t = .kTypeMergeIndex) :
    (SaveValue C ctx ukey seq t v).ctx.state = .kMerge ∧
    (SaveValue C ctx ukey seq t v).ctx.assertsFailed =
      ctx.assertsFailed ++ [253] ∧
    (SaveValue C ctx ukey seq t v).ctx.lazyVal =
      (if t = .kTypeMergeIndex then
        C.transToCombined ctx.userKey (packSequenceAndType seq t) v
       else v) ∧
    (SaveValue C ctx ukey seq t v).ctx.operands = ctx.operands ∧
    (SaveValue C ctx ukey seq t v).ret = false := by
  have hre : reclassify ctx seq t v = (t, v) := by
    rcases ht with rfl | rfl <;> simp [reclassify, hcov]
  rw [saveValue_consumed C ctx ukey seq t v hk hmin hvis, hre]
  rcases ht with rfl | rfl <;>
    rcases hst with hst | hst <;>
    simp [dispatch, chk, htriv, hlz, hst]

/-- C10 (witness): a trivial-mode resolver fed a concrete merge
record. -/
theorem C10_witness :
    (SaveValue CexA { freshCtx [1] with trivial := true }
        [1] 5 .kTypeMerge [7]).ctx.state = .kMerge ∧
    (SaveValue CexA { freshCtx [1] with trivial := true }
        [1] 5 .kTypeMerge [7]).ctx.assertsFailed = [253] ∧
    (SaveValue CexA { freshCtx [1] with trivial := true }
        [1] 5 .kTypeMerge [7]).ctx.lazyVal = [7] ∧
    (SaveValue CexA { freshCtx [1] with trivial := true }
        [1] 5 .kTypeMerge [7]).ctx.operands = [] ∧
    (SaveValue CexA { freshCtx [1] with trivial := true }
        [1] 5 .kTypeMerge [7]).ret = false := by
  have h := C10_trivial_merge_assert CexA
    { freshCtx [1] with trivial := true } [1] [7] 5 .kTypeMerge
    rfl rfl (Or.inl rfl) (by decide) rfl rfl rfl (Or.inl rfl)
  simpa using h

/-- Applying `TrimAppend` at the current size is a plain append. -/
lemma trimAppend_size (k d : List Nat) :
    trimAppend k k.length d = k ++ d := by
  simp [trimAppend]

/-- C8 (counterexample): the claim says that with an active snapshot the
cache-key sequence equals the lookup key's snapshot bound; with
`largest_seqno = 5` and a lookup-key sequence of 10 the code writes
`min(5, 10) = 5`, not 10, so the computed key differs from the claimed
concatenation. -/
theorem C8_counterexample :
    computeRowCacheKey [] [9] 1 true 5 [7] 10 = [9, 1, 5, 7] ∧
    computeRowCacheKey [] [9] 1 true 5 [7] 10 ≠
      [9] ++ encodeVarint 1 ++ encodeVarint 10 ++ [7] := by
  constructor <;> decide

/-- C8 (amended): the row-cache key is exactly the concatenation of the
cache-namespace identifier, a varint encoding of the file number, a
varint encoding of a sequence number, and the raw user key, where the
sequence number is the **minimum** of the table's largest sequence number
and the lookup key's snapshot-visible bound when a snapshot is active,
and the table's largest sequence number otherwise. -/
theorem C8_rowCacheKey_layout (rowCacheId userKey : List Nat)
    (fileNumber largestSeqno keySeqno : Nat) (snapshotActive : Bool) :
    computeRowCacheKey [] rowCacheId fileNumber snapshotActive
        largestSeqno userKey keySeqno =
      rowCacheId ++ encodeVarint fileNumber ++
        encodeVarint
          (if snapshotActive then min largestSeqno keySeqno
           else largestSeqno) ++ userKey := by
  simp only [computeRowCacheKey, rowCacheSeqNo, trimAppend_size,
    List.append_assoc]
  simp [trimAppend]

/-- C3 (counterexample): the claim says the sink receives the
post-indirect-translation type and value; on a `kTypeValueIndex` record
the sink is invoked before `TransToCombined` runs, so it receives
`(kTypeValueIndex, raw value)` while the dispatch resolves the translated
value — the logged pair is not the post-translation pair. -/
theorem C3_counterexample :
    (SaveValue CexA { freshCtx [1] with hasReplayLog := true }
        [1] 4 .kTypeValueIndex [5]).ctx.replayLog =
      [(.kTypeValueIndex, [5])] ∧
    (SaveValue CexA { freshCtx [1] with hasReplayLog := true }
        [1] 4 .kTypeValueIndex [5]).ctx.lazyVal = [0, 5] ∧
    ((.kTypeValueIndex, [5]) : ValueType × List Nat) ≠
      (.kTypeValue, [0, 5]) := by
  refine ⟨by decide, by decide, by decide⟩

/-- C3 (amended): while a replay sink is registered, every consumed
record — user key matching, not masked by `min_seq_type_`, visible to the
callback — appends to the sink exactly its post-reclassification but
**pre-translation** (type, value) pair, before the type dispatch runs and
independently of the dispatch's effect on the state; a record that is not
consumed appends nothing.  Appending at the tail reproduces the
presentation order. -/
theorem C3_replay_sink (C : Collaborators) (ctx : GetContext)
    (ukey : List Nat) (seq : Nat) (t : ValueType) (v : List Nat)
    (hcb : ctx.hasReplayLog = true) :
    (SaveValue C ctx ukey seq t v).ctx.replayLog =
      ctx.replayLog ++
        (if C.ucmpEqual ukey ctx.userKey = true ∧
            ¬ packSequenceAndType seq t < ctx.minSeqType ∧
            checkCallback ctx seq = true
         then [reclassify ctx seq t v] else []) := by
  by_cases hk : C.ucmpEqual ukey ctx.userKey = true
  · by_cases hmask : packSequenceAndType seq t < ctx.minSeqType
    · simp [SaveValue, hk, hmask]
    · by_cases hvis : checkCallback ctx seq = true
      · have hd := (dispatch_preserves C
          (logAppend (seqUpdate ctx seq) (reclassify ctx seq t v))
          (packSequenceAndType seq t)
          (reclassify ctx seq t v).1 (reclassify ctx seq t v).2).2.2.2.2.2.2.2.1
        simp [SaveValue, hk, hmask, hvis, hd, logAppend_replayLog, hcb]
      · simp [SaveValue, hk, hmask, hvis]
  · simp [SaveValue, hk]

/-- C3 (witness): the amended statement at a concrete consumed merge
record under a registered sink. -/
theorem C3_witness :
    (SaveValue CexA { freshCtx [1] with hasReplayLog := true }
        [1] 6 .kTypeMerge [8]).ctx.replayLog =
      [] ++
        (if CexA.ucmpEqual [1]
              ({ freshCtx [1] with hasReplayLog := true } :
                GetContext).userKey = true ∧
            ¬ packSequenceAndType 6 .kTypeMerge <
              ({ freshCtx [1] with hasReplayLog := true } :
                GetContext).minSeqType ∧
            checkCallback { freshCtx [1] with hasReplayLog := true } 6 =
              true
         then [reclassify { freshCtx [1] with hasReplayLog := true }
                 6 .kTypeMerge [8]]
         else []) :=
  C3_replay_sink CexA { freshCtx [1] with hasReplayLog := true }
    [1] 6 .kTypeMerge [8] rfl

/-- Monotonicity: `Insert` never removes anything: any key found before an insertion is
still found after it (inserts only append to one bucket, and a bucket,
once created, is never replaced or emptied). -/
lemma contains_insert_mono (r : HashSkipListRep) (k k' : List Nat)
    (h : r.Contains k = true) : (r.Insert k').Contains k = true := by
  unfold HashSkipListRep.Contains getBucket getHash at h ⊢
  simp only [HashSkipListRep.Insert, getHash]
  by_cases he : r.hashFn (r.transform (extractUserKey k)) % r.bucketSize =
      r.hashFn (r.transform (extractUserKey k')) % r.bucketSize
  · rw [← he]
    simp only [if_pos rfl]
    rcases hbb : r.buckets (r.hashFn (r.transform (extractUserKey k)) %
        r.bucketSize) with _ | b
    · rw [hbb] at h
      simp at h
    · rw [hbb] at h
      simp only [Option.getD_some]
      simp [List.any_append] at h ⊢
      rcases h with ⟨x, hx, hcx⟩
      exact Or.inl ⟨x, hx, hcx⟩
  · simp only [if_neg (fun hh => he hh)]
    exact h

/-- Inserting any further keys preserves membership. -/
lemma contains_foldl_insert (k : List Nat) :
    ∀ (ks : List (List Nat)) (r : HashSkipListRep),
      r.Contains k = true →
      (ks.foldl HashSkipListRep.Insert r).Contains k = true := by
  intro ks
  induction ks with
  | nil => intro r h; exact h
  | cons a as ih =>
    intro r h
    exact ih (r.Insert a) (contains_insert_mono r k a h)

/-- C6: for every key `k` and every index state satisfying `Insert`'s
no-duplicate precondition (`assert(!Contains(internal_key))`),
`Contains k` is true immediately after `Insert k`, and it stays true
after any subsequent sequence of `Insert` operations: the shard is chosen
by the same deterministic hash of the transformed user key, buckets only
grow, and no operation removes a key. -/
theorem C6_insert_contains (r : HashSkipListRep) (k : List Nat)
    (hrefl : ∀ x, r.ceq x x = true)
    (_hpre : r.Contains k = false) :
    (r.Insert k).Contains k = true ∧
    ∀ ks : List (List Nat),
      (ks.foldl HashSkipListRep.Insert (r.Insert k)).Contains k = true := by
  have h1 : (r.Insert k).Contains k = true := by
    unfold HashSkipListRep.Contains getBucket
    simp only [HashSkipListRep.Insert, getHash]
    simp [List.any_append, hrefl]
  exact ⟨h1, fun ks => contains_foldl_insert k ks (r.Insert k) h1⟩

/-- A concrete four-shard index with identity transform, bytewise
comparator equality and a summation hash, used by the C6 witness. -/
def rep0 : HashSkipListRep :=
  { bucketSize := 4
    buckets := fun _ => none
    transform := id
    hashFn := fun s => s.foldl (· + ·) 0
    ceq := fun a b => a == b }

/-- C6 (witness): a concrete internal key stays in the index across a
subsequent insertion into another shard. -/
theorem C6_witness :
    (rep0.Insert [1, 2, 3, 4, 5, 6, 7, 8, 9]).Contains
        [1, 2, 3, 4, 5, 6, 7, 8, 9] = true ∧
    (([[5, 0, 0, 0, 0, 0, 0, 0, 0]] : List (List Nat)).foldl
        HashSkipListRep.Insert
        (rep0.Insert [1, 2, 3, 4, 5, 6, 7, 8, 9])).Contains
        [1, 2, 3, 4, 5, 6, 7, 8, 9] = true := by
  have h := C6_insert_contains rep0 [1, 2, 3, 4, 5, 6, 7, 8, 9]
    (fun x => beq_self_eq_true x) (by decide)
  exact ⟨h.1, h.2 [[5, 0, 0, 0, 0, 0, 0, 0, 0]]⟩

/-! ## C1: merge-operand streams ending in a value or a deletion -/

/-- The records of a single-key lookup stream: each (sequence, operand)
pair becomes a `kTypeMerge` record for the target user key. -/
def mergeRecords (ukey : List Nat) (ops : List (Nat × List Nat)) :
    List RecordIn :=
  ops.map (fun so => ⟨ukey, so.1, .kTypeMerge, so.2⟩)

/-- A fresh resolver part-way through a lookup: state `st`, output slice
contents `lv`, accumulated operands `acc`, all other fields as freshly
constructed. -/
def midCtx (ukey : List Nat) (st : GetState) (lv : List Nat)
    (acc : List (List Nat)) : GetContext :=
  { freshCtx ukey with
    state := st
    lazyVal := lv
    operands := acc }

lemma saveValue_mid_merge (C : Collaborators) (ukey lv o : List Nat)
    (s : Nat) (st : GetState) (acc : List (List Nat))
    (hk : C.ucmpEqual ukey ukey = true)
    (hsm : ∀ l, C.shouldMerge l = false)
    (hst : st = .kNotFound ∨ st = .kMerge) :
    SaveValue C (midCtx ukey st lv acc) ukey s .kTypeMerge o =
      ⟨midCtx ukey .kMerge lv (acc ++ [o]), true, true⟩ := by
  rcases hst with rfl | rfl <;>
    simp [SaveValue, midCtx, freshCtx, GetContext.init, checkCallback,
      reclassify, coveredByTombstone, dispatch, chk, seqUpdate, logAppend,
      hk, hsm]

lemma saveValue_mid_value (C : Collaborators) (ukey lv v : List Nat)
    (s : Nat) (acc : List (List Nat))
    (hk : C.ucmpEqual ukey ukey = true) :
    SaveValue C (midCtx ukey .kNotFound lv acc) ukey s .kTypeValue v =
      ⟨midCtx ukey .kFound v acc, false, true⟩ ∧
    SaveValue C (midCtx ukey .kMerge lv acc) ukey s .kTypeValue v =
      (match C.fullMerge ukey (some v) acc with
       | some res => ⟨midCtx ukey .kFound res acc, false, true⟩
       | none => ⟨midCtx ukey .kCorrupt lv acc, false, true⟩) := by
  constructor
  · simp [SaveValue, midCtx, freshCtx, GetContext.init, checkCallback,
      reclassify, coveredByTombstone, dispatch, chk, seqUpdate, logAppend,
      hk]
  · rcases hfm : C.fullMerge ukey (some v) acc with _ | res <;>
      simp [SaveValue, midCtx, freshCtx, GetContext.init, checkCallback,
        reclassify, coveredByTombstone, dispatch, chk, seqUpdate,
        logAppend, hk, hfm]

lemma saveValue_mid_deletion (C : Collaborators) (ukey lv dv : List Nat)
    (s : Nat) (acc : List (List Nat))
    (hk : C.ucmpEqual ukey ukey = true) :
    SaveValue C (midCtx ukey .kNotFound lv acc) ukey s .kTypeDeletion dv =
      ⟨midCtx ukey .kDeleted lv acc, false, true⟩ ∧
    SaveValue C (midCtx ukey .kMerge lv acc) ukey s .kTypeDeletion dv =
      (match C.fullMerge ukey none acc with
       | some res => ⟨midCtx ukey .kFound res acc, false, true⟩
       | none => ⟨midCtx ukey .kCorrupt lv acc, false, true⟩) := by
  constructor
  · simp [SaveValue, midCtx, freshCtx, GetContext.init, checkCallback,
      reclassify, coveredByTombstone, dispatch, chk, seqUpdate, logAppend,
      hk]
  · rcases hfm : C.fullMerge ukey none acc with _ | res <;>
      simp [SaveValue, midCtx, freshCtx, GetContext.init, checkCallback,
        reclassify, coveredByTombstone, dispatch, chk, seqUpdate,
        logAppend, hk, hfm]

/-- Feeding a block of merge records accumulates exactly their operand
values, newest first, leaving the state in `kMerge` (when
`ShouldMerge` never fires). -/
lemma runStream_merges (C : Collaborators) (ukey lv : List Nat)
    (hk : C.ucmpEqual ukey ukey = true)
    (hsm : ∀ l, C.shouldMerge l = false) :
    ∀ (ops : List (Nat × List Nat)) (acc : List (List Nat))
      (rest : List RecordIn),
      runStream C (midCtx ukey .kMerge lv acc)
          (mergeRecords ukey ops ++ rest) =
        runStream C (midCtx ukey .kMerge lv (acc ++ ops.map Prod.snd))
          rest := by
  intro ops
  induction ops with
  | nil => intro acc rest; simp [mergeRecords]
  | cons p ps ih =>
    intro acc rest
    simp only [mergeRecords, List.map_cons, List.cons_append, runStream]
    rw [saveValue_mid_merge C ukey lv p.2 p.1 .kMerge acc hk hsm
      (Or.inr rfl)]
    simp only [if_true, List.append_eq]
    have := ih (acc ++ [p.2]) rest
    simp only [mergeRecords] at this
    rw [this]
    simp

/-- C1: a fresh resolver fed a descending stream of merge records ending
in a `Value` record (with `ShouldMerge` never firing) ends `kFound` with
output `fullMerge(value, operands-newest-first)` — the value verbatim
when there were no merge records; the same stream ending in a `Deletion`
ends with `fullMerge(nil, operands-newest-first)` (`kDeleted` when there
were no merge records); a failing merge ends `kCorrupt` instead. -/
theorem C1_merge_streams (C : Collaborators) (ukey v dv : List Nat)
    (vseq dseq : Nat) (ops : List (Nat × List Nat))
    (hk : C.ucmpEqual ukey ukey = true)
    (hsm : ∀ l, C.shouldMerge l = false) :
    (ops = [] →
      runStream C (freshCtx ukey)
          (mergeRecords ukey ops ++ [⟨ukey, vseq, .kTypeValue, v⟩]) =
        midCtx ukey .kFound v [] ∧
      runStream C (freshCtx ukey)
          (mergeRecords ukey ops ++ [⟨ukey, dseq, .kTypeDeletion, dv⟩]) =
        midCtx ukey .kDeleted [] []) ∧
    (ops ≠ [] →
      runStream C (freshCtx ukey)
          (mergeRecords ukey ops ++ [⟨ukey, vseq, .kTypeValue, v⟩]) =
        (match C.fullMerge ukey (some v) (ops.map Prod.snd) with
         | some res => midCtx ukey .kFound res (ops.map Prod.snd)
         | none => midCtx ukey .kCorrupt [] (ops.map Prod.snd)) ∧
      runStream C (freshCtx ukey)
          (mergeRecords ukey ops ++ [⟨ukey, dseq, .kTypeDeletion, dv⟩]) =
        (match C.fullMerge ukey none (ops.map Prod.snd) with
         | some res => midCtx ukey .kFound res (ops.map Prod.snd)
         | none => midCtx ukey .kCorrupt [] (ops.map Prod.snd))) := by
  have hfresh : freshCtx ukey = midCtx ukey .kNotFound [] [] := rfl
  constructor
  · rintro rfl
    constructor
    · simp only [mergeRecords, List.map_nil, List.nil_append, runStream,
        hfresh]
      rw [(saveValue_mid_value C ukey [] v vseq [] hk).1]
      simp
    · simp only [mergeRecords, List.map_nil, List.nil_append, runStream,
        hfresh]
      rw [(saveValue_mid_deletion C ukey [] dv dseq [] hk).1]
      simp
  · intro hne
    rcases ops with _ | ⟨p, ps⟩
    · exact absurd rfl hne
    constructor
    · simp only [mergeRecords, List.map_cons, List.cons_append, runStream,
        hfresh]
      rw [saveValue_mid_merge C ukey [] p.2 p.1 .kNotFound [] hk hsm
        (Or.inl rfl)]
      simp only [if_true, List.append_eq, List.nil_append]
      have hmm := runStream_merges C ukey [] hk hsm ps [p.2]
        [⟨ukey, vseq, .kTypeValue, v⟩]
      simp only [mergeRecords] at hmm
      rw [hmm]
      simp only [runStream, List.singleton_append]
      rw [(saveValue_mid_value C ukey [] v vseq
        (p.2 :: ps.map Prod.snd) hk).2]
      rcases hfm : C.fullMerge ukey (some v) (p.2 :: ps.map Prod.snd)
        with _ | res <;> simp
    · simp only [mergeRecords, List.map_cons, List.cons_append, runStream,
        hfresh]
      rw [saveValue_mid_merge C ukey [] p.2 p.1 .kNotFound [] hk hsm
        (Or.inl rfl)]
      simp only [if_true, List.append_eq, List.nil_append]
      have hmm := runStream_merges C ukey [] hk hsm ps [p.2]
        [⟨ukey, dseq, .kTypeDeletion, dv⟩]
      simp only [mergeRecords] at hmm
      rw [hmm]
      simp only [runStream, List.singleton_append]
      rw [(saveValue_mid_deletion C ukey [] dv dseq
        (p.2 :: ps.map Prod.snd) hk).2]
      rcases hfm : C.fullMerge ukey none (p.2 :: ps.map Prod.snd)
        with _ | res <;> simp

/-- C1 (witness): two merge operands then a value (resp. a deletion)
under the concatenating merge operator. -/
theorem C1_witness :
    runStream CexA (freshCtx [1])
        (mergeRecords [1] [(9, [10]), (7, [11])] ++
          [⟨[1], 5, .kTypeValue, [12]⟩]) =
      midCtx [1] .kFound [12, 10, 11] [[10], [11]] ∧
    runStream CexA (freshCtx [1])
        (mergeRecords [1] [(9, [10]), (7, [11])] ++
          [⟨[1], 3, .kTypeDeletion, []⟩]) =
      midCtx [1] .kFound [10, 11] [[10], [11]] := by
  have h := (C1_merge_streams CexA [1] [12] [] 5 3 [(9, [10]), (7, [11])]
    (by decide) (fun _ => rfl)).2 (by simp)
  have e1 : CexA.fullMerge [1] (some [12]) [[10], [11]] =
      some [12, 10, 11] := by decide
  have e2 : CexA.fullMerge [1] none [[10], [11]] = some [10, 11] := by
    decide
  simpa [e1, e2] using h

/-! ## C7: replay-log round trip -/

lemma encodeVarintAux_decode :
    ∀ (fuel n : Nat) (rest : List Nat), n ≤ fuel →
      decodeVarint (encodeVarintAux fuel n ++ rest) = some (n, rest) := by
  intro fuel
  induction fuel with
  | zero =>
    intro n rest h
    have hn : n = 0 := Nat.le_zero.mp h
    subst hn
    simp [encodeVarintAux, decodeVarint]
  | succ f ih =>
    intro n rest h
    by_cases h128 : n < 128
    · simp [encodeVarintAux, h128, decodeVarint]
    · simp only [encodeVarintAux, h128, if_false, List.cons_append]
      have hb : ¬ (n % 128 + 128 < 128) := by omega
      rw [decodeVarint]
      simp only [hb, if_false]
      rw [ih (n / 128) rest (by omega)]
      simp only [Option.some.injEq, Prod.mk.injEq]
      exact ⟨by omega, trivial⟩

lemma decodeVarint_encodeVarint (n : Nat) (rest : List Nat) :
    decodeVarint (encodeVarint n ++ rest) = some (n, rest) :=
  encodeVarintAux_decode n n rest (Nat.le_refl n)

lemma getLengthPrefixedSlice_encode (v rest : List Nat) :
    getLengthPrefixedSlice (encodeVarint v.length ++ (v ++ rest)) =
      some (v, rest) := by
  unfold getLengthPrefixedSlice
  rw [decodeVarint_encodeVarint]
  simp

lemma decodeType_typeByte (t : ValueType) : decodeType (typeByte t) = t := by
  cases t <;> rfl

lemma decodeReplayLogAux_encode :
    ∀ (ps : List (ValueType × List Nat)) (fuel : Nat),
      (encodeReplayLog ps).length ≤ fuel →
      decodeReplayLogAux fuel (encodeReplayLog ps) = ps := by
  intro ps
  induction ps with
  | nil =>
    intro fuel h
    cases fuel <;> simp [encodeReplayLog, decodeReplayLogAux]
  | cons p ps ih =>
    intro fuel h
    rcases p with ⟨t, v⟩
    rcases fuel with _ | f
    · exfalso
      simp [encodeReplayLog] at h
    · simp only [encodeReplayLog, decodeReplayLogAux, List.append_assoc]
      rw [getLengthPrefixedSlice_encode, decodeType_typeByte]
      have hlen : (encodeReplayLog ps).length ≤ f := by
        simp only [encodeReplayLog, List.length_cons, List.length_append]
          at h
        omega
      simp [ih f hlen]

/-- Decoding a replay-log buffer produced by `AddReplayLog` recovers the
logged pairs. -/
lemma decodeReplayLog_encodeReplayLog (ps : List (ValueType × List Nat)) :
    decodeReplayLog (encodeReplayLog ps) = ps :=
  decodeReplayLogAux_encode ps (encodeReplayLog ps).length
    (Nat.le_refl _)

/-- The observable outcome of a lookup: terminal state, resolved value,
pending operands. -/
def obsEq (a b : GetContext) : Prop :=
  a.state = b.state ∧ a.lazyVal = b.lazyVal ∧ a.operands = b.operands

/-- Invariant of the original scanning context: target key, non-trivial,
no map-sst mask, non-null output slice, replay sink registered. -/
def scanOk (ukey : List Nat) (o : GetContext) : Prop :=
  o.userKey = ukey ∧ o.trivial = false ∧ o.minSeqType = 0 ∧
  o.lazyValPresent = true ∧ o.hasReplayLog = true

/-- Invariant of the replaying context: fresh resolver for the same key,
no visibility callback, no covering tombstone. -/
def replayOk (ukey : List Nat) (rc : GetContext) : Prop :=
  rc.userKey = ukey ∧ rc.trivial = false ∧ rc.minSeqType = 0 ∧
  rc.lazyValPresent = true ∧ rc.callback = none ∧
  rc.maxCoveringTombstoneSeq = none

/-- Preservation: `SaveValue` never changes the construction-time fields of the
context. -/
lemma saveValue_preserves (C : Collaborators) (ctx : GetContext)
    (ukey : List Nat) (seq : Nat) (t : ValueType) (v : List Nat) :
    (SaveValue C ctx ukey seq t v).ctx.userKey = ctx.userKey ∧
    (SaveValue C ctx ukey seq t v).ctx.trivial = ctx.trivial ∧
    (SaveValue C ctx ukey seq t v).ctx.minSeqType = ctx.minSeqType ∧
    (SaveValue C ctx ukey seq t v).ctx.lazyValPresent =
      ctx.lazyValPresent ∧
    (SaveValue C ctx ukey seq t v).ctx.hasReplayLog = ctx.hasReplayLog ∧
    (SaveValue C ctx ukey seq t v).ctx.callback = ctx.callback ∧
    (SaveValue C ctx ukey seq t v).ctx.maxCoveringTombstoneSeq =
      ctx.maxCoveringTombstoneSeq := by
  by_cases hk2 : C.ucmpEqual ukey ctx.userKey = true
  · by_cases hmask : packSequenceAndType seq t < ctx.minSeqType
    · simp [SaveValue, hk2, hmask]
    · by_cases hvis : checkCallback ctx seq = true
      · obtain ⟨h1, h2, h3, h4, h5, h6, h7, _, _⟩ := dispatch_preserves C
          (logAppend (seqUpdate ctx seq) (reclassify ctx seq t v))
          (packSequenceAndType seq t)
          (reclassify ctx seq t v).1 (reclassify ctx seq t v).2
        simp [SaveValue, hk2, hmask, hvis, h1, h2, h3, h4, h5, h6, h7]
      · simp [SaveValue, hk2, hmask, hvis]
  · simp [SaveValue, hk2]

lemma scanOk_preserved (C : Collaborators) (ukey : List Nat)
    (ctx : GetContext) (k : List Nat) (seq : Nat) (t : ValueType)
    (v : List Nat) (h : scanOk ukey ctx) :
    scanOk ukey (SaveValue C ctx k seq t v).ctx := by
  obtain ⟨p1, p2, p3, p4, p5, _, _⟩ := saveValue_preserves C ctx k seq t v
  obtain ⟨h1, h2, h3, h4, h5⟩ := h
  exact ⟨p1.trans h1, p2.trans h2, p3.trans h3, p4.trans h4, p5.trans h5⟩

lemma replayOk_preserved (C : Collaborators) (ukey : List Nat)
    (ctx : GetContext) (k : List Nat) (seq : Nat) (t : ValueType)
    (v : List Nat) (h : replayOk ukey ctx) :
    replayOk ukey (SaveValue C ctx k seq t v).ctx := by
  obtain ⟨p1, p2, p3, p4, _, p6, p7⟩ := saveValue_preserves C ctx k seq t v
  obtain ⟨h1, h2, h3, h4, h5, h6⟩ := h
  exact ⟨p1.trans h1, p2.trans h2, p3.trans h3, p4.trans h4,
    p6.trans h5, p7.trans h6⟩

/-- Reclassification either leaves the record alone or replaces it with a
range-deletion pair. -/
lemma reclassify_cases (ctx : GetContext) (seq : Nat) (t : ValueType)
    (v : List Nat) :
    reclassify ctx seq t v = (t, v) ∨
    reclassify ctx seq t v = (.kTypeRangeDeletion, []) := by
  unfold reclassify
  split
  · exact Or.inr rfl
  · exact Or.inl rfl

lemma replayPairs_nil (C : Collaborators) (rc : GetContext)
    (ukey : List Nat) : replayPairs C rc ukey [] = rc := rfl

lemma replayPairs_cons (C : Collaborators) (rc : GetContext)
    (ukey : List Nat) (tv : ValueType × List Nat)
    (d : List (ValueType × List Nat)) :
    replayPairs C rc ukey (tv :: d) =
      replayPairs C (SaveValue C rc ukey kMaxSequenceNumber tv.1 tv.2).ctx
        ukey d := rfl

/-- Replay simulation: scanning a stream of direct-type records appends
some pair list `d` to the replay log, and replaying exactly `d` into any
fresh-style resolver that observationally matches the scan's starting
point reproduces the scan's observable outcome. -/
lemma replay_sim (C : Collaborators) (ukey : List Nat)
    (hk : C.ucmpEqual ukey ukey = true) :
    ∀ (stream : List RecordIn) (o rc : GetContext),
      scanOk ukey o → replayOk ukey rc → obsEq rc o →
      (∀ r ∈ stream, r.type ≠ .kTypeValueIndex ∧
        r.type ≠ .kTypeMergeIndex) →
      ∃ d : List (ValueType × List Nat),
        (runStream C o stream).replayLog = o.replayLog ++ d ∧
        obsEq (replayPairs C rc ukey d) (runStream C o stream) := by
  intro stream
  induction stream with
  | nil =>
    intro o rc _ _ he _
    exact ⟨[], by simp [runStream],
      by simpa [runStream, replayPairs] using he⟩
  | cons r rs ih =>
    intro o rc ho hr he hno
    obtain ⟨hou, hotr, homin, holvp, horl⟩ := ho
    by_cases hkey : C.ucmpEqual r.userKey o.userKey = true
    · have hmask : ¬ packSequenceAndType r.seq r.type < o.minSeqType := by
        rw [homin]; exact Nat.not_lt_zero _
      by_cases hvis : checkCallback o r.seq = true
      · -- the record is consumed
        have hcons := saveValue_consumed C o r.userKey r.seq r.type
          r.value hkey homin hvis
        set tv := reclassify o r.seq r.type r.value with htv
        have hkr : C.ucmpEqual ukey rc.userKey = true := by
          rw [hr.1]; exact hk
        have hvr : checkCallback rc kMaxSequenceNumber = true := by
          simp [checkCallback, hr.2.2.2.2.1]
        have hconsr := saveValue_consumed C rc ukey kMaxSequenceNumber
          tv.1 tv.2 hkr hr.2.2.1 hvr
        have hrer : reclassify rc kMaxSequenceNumber tv.1 tv.2 =
            (tv.1, tv.2) := by
          simp [reclassify, coveredByTombstone, hr.2.2.2.2.2]
        rw [hrer] at hconsr
        dsimp only at hconsr
        have hdt : tv.1 ≠ .kTypeValueIndex ∧ tv.1 ≠ .kTypeMergeIndex := by
          rcases reclassify_cases o r.seq r.type r.value with hc | hc <;>
            rw [← htv] at hc <;> rw [hc]
          · exact hno r (List.mem_cons_self r rs)
          · exact ⟨by decide, by decide⟩
        have hcg := dispatch_congr C
          (logAppend (seqUpdate rc kMaxSequenceNumber) (tv.1, tv.2))
          (logAppend (seqUpdate o r.seq) tv)
          (packSequenceAndType kMaxSequenceNumber tv.1)
          (packSequenceAndType r.seq r.type)
          tv.1 tv.2 hdt.1 hdt.2
          (by simp [hr.1, hou]) (by simp [hr.2.1, hotr])
          (by simp [hr.2.2.2.1, holvp]) (by simp [he.1])
          (by simp [he.2.1]) (by simp [he.2.2])
        have horlog : (logAppend (seqUpdate o r.seq) tv).replayLog =
            o.replayLog ++ [tv] := by
          rw [logAppend_replayLog]; simp [horl]
        obtain ⟨_, _, _, _, _, _, _, hdrl, _⟩ :=
          dispatch_preserves C (logAppend (seqUpdate o r.seq) tv)
            (packSequenceAndType r.seq r.type) tv.1 tv.2
        have hrun : runStream C o (r :: rs) =
            (if (dispatch C (logAppend (seqUpdate o r.seq) tv)
                  (packSequenceAndType r.seq r.type) tv.1 tv.2).ret then
              runStream C (dispatch C (logAppend (seqUpdate o r.seq) tv)
                (packSequenceAndType r.seq r.type) tv.1 tv.2).ctx rs
             else (dispatch C (logAppend (seqUpdate o r.seq) tv)
                (packSequenceAndType r.seq r.type) tv.1 tv.2).ctx) := by
          simp only [runStream, hcons]
        have ho' : scanOk ukey (dispatch C
            (logAppend (seqUpdate o r.seq) tv)
            (packSequenceAndType r.seq r.type) tv.1 tv.2).ctx := by
          rw [← hcons]
          exact scanOk_preserved C ukey o r.userKey r.seq r.type r.value
            ⟨hou, hotr, homin, holvp, horl⟩
        have hr' : replayOk ukey (dispatch C
            (logAppend (seqUpdate rc kMaxSequenceNumber) (tv.1, tv.2))
            (packSequenceAndType kMaxSequenceNumber tv.1) tv.1 tv.2).ctx
            := by
          rw [← hconsr]
          exact replayOk_preserved C ukey rc ukey kMaxSequenceNumber
            tv.1 tv.2 hr
        by_cases hret : (dispatch C (logAppend (seqUpdate o r.seq) tv)
            (packSequenceAndType r.seq r.type) tv.1 tv.2).ret = true
        · -- the scan continues with the stepped context
          obtain ⟨d', hlog', hobs'⟩ := ih
            (dispatch C (logAppend (seqUpdate o r.seq) tv)
              (packSequenceAndType r.seq r.type) tv.1 tv.2).ctx
            (dispatch C
              (logAppend (seqUpdate rc kMaxSequenceNumber) (tv.1, tv.2))
              (packSequenceAndType kMaxSequenceNumber tv.1) tv.1 tv.2).ctx
            ho' hr' ⟨hcg.1, hcg.2.1, hcg.2.2.1⟩
            (fun r' h' => hno r' (List.mem_cons_of_mem r h'))
          refine ⟨tv :: d', ?_, ?_⟩
          · rw [hrun, if_pos hret, hlog', hdrl, horlog]
            simp
          · rw [hrun, if_pos hret, replayPairs_cons]
            rw [hconsr]
            exact hobs'
        · -- the scan stops here
          refine ⟨[tv], ?_, ?_⟩
          · rw [hrun, if_neg hret, hdrl, horlog]
          · rw [hrun, if_neg hret, replayPairs_cons, replayPairs_nil]
            rw [hconsr]
            exact ⟨hcg.1, hcg.2.1, hcg.2.2.1⟩
      · -- invisible to the snapshot: skipped, scan continues
        have hstep : SaveValue C o r.userKey r.seq r.type r.value =
            ⟨o, true, true⟩ := by
          simp [SaveValue, hkey, hmask, hvis]
        have hrun : runStream C o (r :: rs) = runStream C o rs := by
          simp [runStream, hstep]
        rw [hrun]
        exact ih o rc ⟨hou, hotr, homin, holvp, horl⟩ hr he
          (fun r' h' => hno r' (List.mem_cons_of_mem r h'))
    · -- user key mismatch: the scan stops with the context untouched
      have hstep := saveValue_key_mismatch C o r.userKey r.seq r.type
        r.value (by simpa using hkey)
      have hrun : runStream C o (r :: rs) = o := by
        simp [runStream, hstep]
      rw [hrun]
      exact ⟨[], by simp, by simpa [replayPairs] using he⟩

/-- A scanning resolver as built for a real lookup: fresh, possibly with
a visibility callback and a covering-tombstone pointer, and with the
row-cache replay sink registered. -/
def scanCtx (ukey : List Nat) (cb : Option (Nat → Bool))
    (mc : Option Nat) : GetContext :=
  { GetContext.init .kNotFound ukey true mc false cb false with
    hasReplayLog := true }

/-- C7 (counterexample): the claim quantifies over every consumed stream,
but an indirect `kTypeValueIndex` record breaks the round trip: the log
stores the untranslated value, and replay re-runs `TransToCombined` with
the synthetic sequence `kMaxSequenceNumber`, so a translation that
depends on the packed sequence (as the separation helper's does) yields a
different resolved value — here `[1, 5]` from the scan but `[2, 5]` from
the replay. -/
theorem C7_counterexample :
    (runStream CexVI (scanCtx [1] none none)
        [⟨[1], 5, .kTypeValueIndex, [5]⟩]).state = .kFound ∧
    (runStream CexVI (scanCtx [1] none none)
        [⟨[1], 5, .kTypeValueIndex, [5]⟩]).lazyVal = [1, 5] ∧
    (GetFromRowCacheReplay CexVI [1]
        (encodeReplayLog
          (runStream CexVI (scanCtx [1] none none)
            [⟨[1], 5, .kTypeValueIndex, [5]⟩]).replayLog)).state =
      .kFound ∧
    (GetFromRowCacheReplay CexVI [1]
        (encodeReplayLog
          (runStream CexVI (scanCtx [1] none none)
            [⟨[1], 5, .kTypeValueIndex, [5]⟩]).replayLog)).lazyVal =
      [2, 5] ∧
    ([1, 5] : List Nat) ≠ [2, 5] :=
  ⟨by decide, by decide, by decide, by decide, by decide⟩

/-- C7 (amended): for every stream of **direct-type** records (no
`kTypeValueIndex`/`kTypeMergeIndex`) consumed by a scanning resolver with
a replay sink, encoding the recorded log into the wire format, decoding
it pair by pair, and feeding each pair with the synthetic sequence
`kMaxSequenceNumber` into a fresh resolver with no visibility predicate
reproduces the scan's terminal state, resolved value, and pending
operands, for logs of any length. -/
theorem C7_replay_roundtrip (C : Collaborators) (ukey : List Nat)
    (cb : Option (Nat → Bool)) (mc : Option Nat)
    (stream : List RecordIn)
    (hk : C.ucmpEqual ukey ukey = true)
    (hno : ∀ r ∈ stream, r.type ≠ .kTypeValueIndex ∧
      r.type ≠ .kTypeMergeIndex) :
    obsEq
      (GetFromRowCacheReplay C ukey
        (encodeReplayLog
          (runStream C (scanCtx ukey cb mc) stream).replayLog))
      (runStream C (scanCtx ukey cb mc) stream) := by
  obtain ⟨d, hlog, hobs⟩ := replay_sim C ukey hk stream
    (scanCtx ukey cb mc) (freshCtx ukey)
    ⟨rfl, rfl, rfl, rfl, rfl⟩ ⟨rfl, rfl, rfl, rfl, rfl, rfl⟩
    ⟨rfl, rfl, rfl⟩ hno
  have h0 : (scanCtx ukey cb mc).replayLog = [] := rfl
  rw [h0, List.nil_append] at hlog
  unfold GetFromRowCacheReplay
  rw [hlog, decodeReplayLog_encodeReplayLog]
  exact hobs

/-- C7 (witness): a concrete three-record stream (two merges, then a
value) round-trips through the encoded replay log. -/
theorem C7_witness :
    obsEq
      (GetFromRowCacheReplay CexA [1]
        (encodeReplayLog
          (runStream CexA (scanCtx [1] none none)
            [⟨[1], 9, .kTypeMerge, [10]⟩, ⟨[1], 7, .kTypeMerge, [11]⟩,
             ⟨[1], 5, .kTypeValue, [12]⟩]).replayLog))
      (runStream CexA (scanCtx [1] none none)
        [⟨[1], 9, .kTypeMerge, [10]⟩, ⟨[1], 7, .kTypeMerge, [11]⟩,
         ⟨[1], 5, .kTypeValue, [12]⟩]) :=
  C7_replay_roundtrip CexA [1] none none
    [⟨[1], 9, .kTypeMerge, [10]⟩, ⟨[1], 7, .kTypeMerge, [11]⟩,
     ⟨[1], 5, .kTypeValue, [12]⟩] (by decide) (by decide)

